import Mathlib

/-!
Verification of the week-bucketing and weekly-table-rendering core of the
datum-cloud/scorecard tool (Go sources `cmd/week.go`, `cmd/weekly_table.go`,
`cmd/ashby.go`, `cmd/incidents.go`, `cmd/datum.go`).

Modelling conventions, used throughout:

* A `time.Time` is modelled at UTC day granularity as an `Int`: the number of
  days since 1970-01-01 (a Thursday).  Every core function factors through the
  UTC calendar day of its argument (`t.UTC()` followed by `Weekday`,
  `AddDate(0, 0, k)` and date-only `Format`), so this is lossless.
* A week key is the Go string `monday.Format("2006-01-02")`.  `Format` and
  `Parse` are mutually inverse on such keys, so the embedding identifies a week
  key with the day number of its Monday.
* `int(t.Weekday())` (Sunday = 0 … Saturday = 6) becomes `weekdayUTC` below;
  day 0 (1970-01-01) is a Thursday, weekday 4.
* Go maps `map[string]int` become association lists `List (Int × Int)` with
  zero-defaulting lookup (`lookup0`) and in-place accumulation (`mapAdd`),
  mirroring Go's zero-value map semantics.  Iteration order of a Go map is
  only ever used for order-insensitive sum aggregation.
* `fmt.Printf`/`fmt.Println` output is modelled by returning the emitted
  `String`; `%*d`/`%*s` right-alignment is `padLeft`, `%-*s` is `padRight`.
* Go methods on `*weeklyTable` and map arguments are passed by reference; each
  rendering method therefore returns the post-call receiver state (and, where
  a map is passed, the post-call map) alongside its output, mirroring the
  method bodies, which contain no assignment to either.
* The only floating-point arithmetic in the core (`printHistogram`'s bar
  thresholds, bar lengths and one-decimal averages over small integer counts)
  is modelled as exact rational arithmetic: `int(float64(a)/float64(b)*k)`
  becomes the integer floor `a * k / b`, and `%.1f` becomes decimal rounding
  half-to-even of `a*10/b`.
-/

/-! ## Week Calendar (`cmd/week.go`) -/

/-- Model of `int(t.Weekday())` for the UTC day number `z`:
Sunday = 0, …, Saturday = 6.  Day 0 = 1970-01-01 is a Thursday (4). -/
def weekdayUTC (z : Int) : Int := (z + 4) % 7

/-- `getWeekStart` returns the Monday (start) of the week containing time `t`.
Weekday 0 (Sunday) is treated as day 7, then `weekday - 1` days are
subtracted. -/
def getWeekStart (t : Int) : Int :=
  let weekday := weekdayUTC t
  let weekday := if weekday = 0 then 7 else weekday
  t - (weekday - 1)

/-- `getLastCompletedWeekStart` returns the Monday of the most recently
completed week: if today is Sunday the last completed week ended last Sunday
(7 days back), otherwise go back `weekday` days to the most recent Sunday;
the week that ended on that Sunday started on the Monday 6 days before.
The Go function reads `time.Now().UTC()`; the observed "now" is the
parameter. -/
def getLastCompletedWeekStart (now : Int) : Int :=
  let weekday := weekdayUTC now
  let lastSunday := if weekday = 0 then now - 7 else now - weekday
  lastSunday - 6

/-- Loop of `getLastNWeeks`: `weeks[n-1-i] = t; t = t.AddDate(0, 0, -7)`,
filling the slice from its last position backwards. -/
def getLastNWeeksAux (t : Int) : Nat → List Int
  | 0 => []
  | n + 1 => getLastNWeeksAux (t - 7) n ++ [t]

/-- `getLastNWeeks` returns the last N completed weeks, oldest first; each
entry is the Monday (start date) of that week. -/
def getLastNWeeks (n : Nat) (now : Int) : List Int :=
  getLastNWeeksAux (getLastCompletedWeekStart now) n

/-- `getLast4Weeks` returns the last 4 completed weeks, oldest first. -/
def getLast4Weeks (now : Int) : List Int := getLastNWeeks 4 now

/-- `getLast26Weeks` returns the last 26 completed weeks (6 months), oldest
first. -/
def getLast26Weeks (now : Int) : List Int := getLastNWeeks 26 now

/-- `weekStartToEnd` converts a Monday date to the corresponding Sunday date
(`AddDate(0, 0, 6)`). -/
def weekStartToEnd (monday : Int) : Int := monday + 6

/-- Modelled from the spec: `getCurrentWeekStart` is called by `ashby.go` and
`datum.go` but its definition is not among the provided sources.  Per the
spec's data model, the current week is "the week key containing now", i.e.
the Monday of the week containing the observed "now". -/
def getCurrentWeekStart (now : Int) : Int := getWeekStart now

/-! ## Civil-date conversion and date formatting

`time.Parse("2006-01-02", _)` / `Format` date arithmetic is standard proleptic
Gregorian; `daysFromCivil`/`civilFromDays` are the usual civil-calendar
conversions to and from days since 1970-01-01. -/

/-- Day number (days since 1970-01-01) of the Gregorian date y-m-d, y ≥ 1. -/
def daysFromCivil (y m d : Nat) : Int :=
  let yAdj := if m ≤ 2 then y - 1 else y
  let era := yAdj / 400
  let yoe := yAdj % 400
  let mp := (m + 9) % 12
  let doy := (153 * mp + 2) / 5 + (d - 1)
  let doe := yoe * 365 + yoe / 4 - yoe / 100 + doy
  (era * 146097 + doe : Int) - 719468

/-- Gregorian date (year, month, day) of a day number (valid for days from
year 1 on). -/
def civilFromDays (z : Int) : Nat × Nat × Nat :=
  let zsh := (z + 719468).toNat
  let era := zsh / 146097
  let doe := zsh % 146097
  let yoe := (doe - doe / 1460 + doe / 36524 - doe / 146096) / 365
  let y := yoe + era * 400
  let doy := doe - (365 * yoe + yoe / 4 - yoe / 100)
  let mp := (5 * doy + 2) / 153
  let d := doy - (153 * mp + 2) / 5 + 1
  let m := if mp < 10 then mp + 3 else mp - 9
  (if m ≤ 2 then y + 1 else y, m, d)

/-- Month abbreviation as produced by Go's `Format("Jan")`. -/
def monthAbbrev : Nat → String
  | 1 => "Jan" | 2 => "Feb" | 3 => "Mar" | 4 => "Apr"
  | 5 => "May" | 6 => "Jun" | 7 => "Jul" | 8 => "Aug"
  | 9 => "Sep" | 10 => "Oct" | 11 => "Nov" | 12 => "Dec"
  | _ => ""

/-- Two-digit zero-padded day as produced by Go's `Format("02")`. -/
def pad2 (n : Nat) : String :=
  if n < 10 then "0" ++ toString n else toString n

/-- `formatWeekEnd` formats a Monday week key as the corresponding Sunday in
Go's "Jan 02" format. -/
def formatWeekEnd (monday : Int) : String :=
  let sunday := weekStartToEnd monday
  let c := civilFromDays sunday
  monthAbbrev c.2.1 ++ " " ++ pad2 c.2.2

/-! ## Printf-style string helpers -/

/-- `fmt.Printf("%*s", w, s)`: right-align `s` in a field of width `w`. -/
def padLeft (w : Nat) (s : String) : String :=
  String.mk (List.replicate (w - s.length) ' ') ++ s

/-- `fmt.Printf("%-*s", w, s)`: left-align `s` in a field of width `w`. -/
def padRight (w : Nat) (s : String) : String :=
  s ++ String.mk (List.replicate (w - s.length) ' ')

/-! ## Go map model -/

/-- Association-list model of `map[string]int` (week keys identified with
their Monday day numbers). -/
abbrev GoMap : Type := List (Int × Int)

/-- Go map read `m[k]`: the stored value, or the zero value 0 when absent. -/
def lookup0 : GoMap → Int → Int
  | [], _ => 0
  | (k, v) :: rest, key => if k = key then v else lookup0 rest key

/-- Go map accumulation `m[k] += v` (inserting `v` when `k` is absent, since
the zero value is 0). -/
def mapAdd : GoMap → Int → Int → GoMap
  | [], k, v => [(k, v)]
  | (k0, v0) :: rest, k, v =>
    if k0 = k then (k0, v0 + v) :: rest else (k0, v0) :: mapAdd rest k v

/-! ## Weekly table renderer (`cmd/weekly_table.go`, current version with an
optional Current column; `currentWeek` is a `string` in Go with `""` meaning
"no current-week column", modelled as `Option Int`). -/

/-- `weeklyTable` represents a table with weeks as columns and rows of data. -/
structure weeklyTable where
  labelColWidth : Nat
  weekColWidth : Nat
  weeks : List Int
deriving DecidableEq

/-- `newWeeklyTable` creates a new weekly table with the specified column
widths and weeks. -/
def newWeeklyTable (labelColWidth weekColWidth : Nat) (weeks : List Int) : weeklyTable :=
  { labelColWidth := labelColWidth, weekColWidth := weekColWidth, weeks := weeks }

/-- `printHeader` prints the table header with week ending dates, an optional
Current column, and a Total column.  Returns (receiver post-state, output). -/
def weeklyTable.printHeader (t : weeklyTable) (labelTitle : String)
    (currentWeek : Option Int) : weeklyTable × String :=
  let out := padRight t.labelColWidth labelTitle
  let out := out ++ String.join (t.weeks.map fun week =>
    padLeft t.weekColWidth (formatWeekEnd week))
  let out := match currentWeek with
    | some _ => out ++ padLeft t.weekColWidth "Current"
    | none => out
  (t, out ++ padLeft t.weekColWidth "Total" ++ "\n")

/-- `printSeparator` prints a horizontal separator line whose width covers the
label column plus one value column per week, plus the Current column when
enabled, plus the Total column. -/
def weeklyTable.printSeparator (t : weeklyTable) (currentWeek : Option Int) :
    weeklyTable × String :=
  let columns := t.weeks.length + 1
  let columns := match currentWeek with
    | some _ => columns + 1
    | none => columns
  let totalWidth := t.labelColWidth + t.weekColWidth * columns
  (t, String.mk (List.replicate totalWidth '-') ++ "\n")

/-- `printRow` prints a data row with label, weekly values, optional current
week, and total; zero values display as "-"; the current week count is not
added to the total.  Returns (receiver post-state, map post-state, output,
returned total). -/
def weeklyTable.printRow (t : weeklyTable) (label : String) (weekValues : GoMap)
    (currentWeek : Option Int) : weeklyTable × GoMap × String × Int :=
  let start := (padRight t.labelColWidth label, (0 : Int))
  let body := t.weeks.foldl (fun (acc : String × Int) week =>
    let count := lookup0 weekValues week
    let cell := if count = 0 then padLeft t.weekColWidth "-"
      else padLeft t.weekColWidth (toString count)
    (acc.1 ++ cell, acc.2 + count)) start
  let out := match currentWeek with
    | some cw =>
      let count := lookup0 weekValues cw
      if count = 0 then body.1 ++ padLeft t.weekColWidth "-"
      else body.1 ++ padLeft t.weekColWidth (toString count)
    | none => body.1
  (t, weekValues, out ++ padLeft t.weekColWidth (toString body.2) ++ "\n", body.2)

/-- `printRowWithSlice` prints a data row from a slice of counts (one per
week); `currentCount = -1` (more precisely any negative value) skips the
Current column, and the current count is never added to the total. -/
def weeklyTable.printRowWithSlice (t : weeklyTable) (label : String)
    (counts : List Int) (currentCount : Int) : weeklyTable × String × Int :=
  let start := (padRight t.labelColWidth label, (0 : Int))
  let body := counts.foldl (fun (acc : String × Int) count =>
    let cell := if count = 0 then padLeft t.weekColWidth "-"
      else padLeft t.weekColWidth (toString count)
    (acc.1 ++ cell, acc.2 + count)) start
  let out := if currentCount ≥ 0 then
      if currentCount = 0 then body.1 ++ padLeft t.weekColWidth "-"
      else body.1 ++ padLeft t.weekColWidth (toString currentCount)
    else body.1
  (t, out ++ padLeft t.weekColWidth (toString body.2) ++ "\n", body.2)

/-- `printTotalsRow` prints a totals row with week totals, optional current
week total, and grand total; the current week total is not added to the grand
total.  Returns (receiver post-state, map post-state, output). -/
def weeklyTable.printTotalsRow (t : weeklyTable) (label : String)
    (weekTotals : GoMap) (currentWeek : Option Int) : weeklyTable × GoMap × String :=
  let start := (padRight t.labelColWidth label, (0 : Int))
  let body := t.weeks.foldl (fun (acc : String × Int) week =>
    let total := lookup0 weekTotals week
    let cell := if total = 0 then padLeft t.weekColWidth "-"
      else padLeft t.weekColWidth (toString total)
    (acc.1 ++ cell, acc.2 + total)) start
  let out := match currentWeek with
    | some cw =>
      let total := lookup0 weekTotals cw
      if total = 0 then body.1 ++ padLeft t.weekColWidth "-"
      else body.1 ++ padLeft t.weekColWidth (toString total)
    | none => body.1
  (t, weekTotals, out ++ padLeft t.weekColWidth (toString body.2) ++ "\n")

/-! ## Legacy weekly table renderer (earlier source revision, no Current
column). -/

namespace legacy

/-- Legacy `weeklyTable` (same fields, no current-week support in any
method). -/
structure weeklyTable where
  labelColWidth : Nat
  weekColWidth : Nat
  weeks : List Int
deriving DecidableEq

/-- Legacy `newWeeklyTable`. -/
def newWeeklyTable (labelColWidth weekColWidth : Nat) (weeks : List Int) : weeklyTable :=
  { labelColWidth := labelColWidth, weekColWidth := weekColWidth, weeks := weeks }

/-- Legacy `printHeader`: label title, week ending dates, Total. -/
def weeklyTable.printHeader (t : weeklyTable) (labelTitle : String) :
    weeklyTable × String :=
  let out := padRight t.labelColWidth labelTitle
  let out := out ++ String.join (t.weeks.map fun week =>
    padLeft t.weekColWidth (formatWeekEnd week))
  (t, out ++ padLeft t.weekColWidth "Total" ++ "\n")

/-- Legacy `printSeparator`. -/
def weeklyTable.printSeparator (t : weeklyTable) : weeklyTable × String :=
  let totalWidth := t.labelColWidth + t.weekColWidth * (t.weeks.length + 1)
  (t, String.mk (List.replicate totalWidth '-') ++ "\n")

/-- Legacy `printRow`: weekly values and total; zeros display as "-". -/
def weeklyTable.printRow (t : weeklyTable) (label : String) (weekValues : GoMap) :
    weeklyTable × GoMap × String × Int :=
  let start := (padRight t.labelColWidth label, (0 : Int))
  let body := t.weeks.foldl (fun (acc : String × Int) week =>
    let count := lookup0 weekValues week
    let cell := if count = 0 then padLeft t.weekColWidth "-"
      else padLeft t.weekColWidth (toString count)
    (acc.1 ++ cell, acc.2 + count)) start
  (t, weekValues, body.1 ++ padLeft t.weekColWidth (toString body.2) ++ "\n", body.2)

/-- Legacy `printRowWithSlice`. -/
def weeklyTable.printRowWithSlice (t : weeklyTable) (label : String)
    (counts : List Int) : weeklyTable × String × Int :=
  let start := (padRight t.labelColWidth label, (0 : Int))
  let body := counts.foldl (fun (acc : String × Int) count =>
    let cell := if count = 0 then padLeft t.weekColWidth "-"
      else padLeft t.weekColWidth (toString count)
    (acc.1 ++ cell, acc.2 + count)) start
  (t, body.1 ++ padLeft t.weekColWidth (toString body.2) ++ "\n", body.2)

/-- Legacy `printTotalsRow`. -/
def weeklyTable.printTotalsRow (t : weeklyTable) (label : String)
    (weekTotals : GoMap) : weeklyTable × GoMap × String :=
  let start := (padRight t.labelColWidth label, (0 : Int))
  let body := t.weeks.foldl (fun (acc : String × Int) week =>
    let total := lookup0 weekTotals week
    let cell := if total = 0 then padLeft t.weekColWidth "-"
      else padLeft t.weekColWidth (toString total)
    (acc.1 ++ cell, acc.2 + total)) start
  (t, weekTotals, body.1 ++ padLeft t.weekColWidth (toString body.2) ++ "\n")

end legacy

/-! ## Histogram renderer (`printHistogram` in `cmd/ashby.go`)

Only the job week-count maps of the `metrics` argument are read, so `metrics`
is modelled as the list of those maps.  Float arithmetic is modelled as exact
rational arithmetic as described in the header. -/

/-- Sum of all jobs' week-count maps into one per-week totals map
(`weekTotals[week] += count` over every entry of every job). -/
def aggregateWeekTotals (metrics : List GoMap) : GoMap :=
  metrics.foldl (fun acc m => m.foldl (fun acc p => mapAdd acc p.1 p.2) acc) []

/-- One bar row of the histogram: 12 spaces of label margin, then one column
per week, filled iff `float64(count) >= float64(row)/float64(15)*float64(max)`
(modelled by the exact cross-multiplied comparison `15*count ≥ row*max`). -/
def histBarRow (counts : List Int) (maxCount row : Int) : String :=
  padLeft 12 "" ++
    String.join (counts.map fun count =>
      if 15 * count ≥ row * maxCount then "█" else " ") ++ "\n"

/-- The 15 bar rows, printed for `row` from 15 down to 1. -/
def histBarRows (counts : List Int) (maxCount : Int) : String :=
  String.join ((List.range 15).map fun i =>
    histBarRow counts maxCount (15 - (i : Int)))

/-- Month tick row: the first letter of the month of each week's Monday,
printed once per month transition, blank otherwise. -/
def monthRow (weeks : List Int) : String :=
  let body := weeks.foldl (fun (acc : String × String) week =>
    let month := monthAbbrev (civilFromDays week).2.1
    if month ≠ acc.2 then (acc.1 ++ month.take 1, month)
    else (acc.1 ++ " ", acc.2)) ("", "")
  padLeft 12 "" ++ body.1 ++ "\n"

/-- Go's `%.1f` on `num/den` (`den > 0`, `num ≥ 0` at every call site),
modelled as exact decimal rounding half-to-even of the rational `num/den` to
one decimal place. -/
def fmt1 (num den : Int) : String :=
  let n10 := num * 10
  let q := n10 / den
  let r := n10 % den
  let q := if 2 * r > den ∨ (2 * r = den ∧ q % 2 = 1) then q + 1 else q
  toString (q / 10) ++ "." ++ toString (q % 10)

/-- One line of the weekly breakdown:
`"  %s  %3d %s\n"` with a secondary bar of
`int(float64(count)/float64(maxCount)*30) + 1` characters when `count > 0`
(the float expression modelled as the integer floor `count*30/maxCount`),
and `"  %s  %3d\n"` with no bar otherwise. -/
def breakdownLine (week count maxCount : Int) : String :=
  if count > 0 then
    "  " ++ formatWeekEnd week ++ "  " ++ padLeft 3 (toString count) ++ " " ++
      String.mk (List.replicate ((count * 30 / maxCount).toNat + 1) '▪') ++ "\n"
  else
    "  " ++ formatWeekEnd week ++ "  " ++ padLeft 3 (toString count) ++ "\n"

/-- The weekly breakdown lines, one per week in order. -/
def breakdownRows (weeks counts : List Int) (maxCount : Int) : String :=
  String.join ((weeks.zip counts).map fun p => breakdownLine p.1 p.2 maxCount)

/-- `printHistogram` renders the 26-week histogram of aggregated applicant
counts: when the maximum weekly count is zero it emits only the "no data"
message; otherwise the title, 15 bar rows, x-axis, month ticks, scale legend,
weekly breakdown, 26-week total and average. -/
def printHistogram (metrics : List GoMap) (now : Int) : String :=
  let weeks := getLast26Weeks now
  let weekTotals := aggregateWeekTotals metrics
  let counts := weeks.map fun week => lookup0 weekTotals week
  let maxCount := counts.foldl (fun maxC count =>
    if count > maxC then count else maxC) 0
  if maxCount = 0 then "No applications in the last 6 months\n"
  else
    "Applicants per Week (Last 6 Months)\n" ++ "\n" ++
    histBarRows counts maxCount ++
    padLeft 12 "" ++ String.mk (List.replicate 26 '-') ++ "\n" ++
    monthRow weeks ++
    "\n" ++
    "Scale: Each row = " ++ fmt1 maxCount 15 ++ " applicants\n" ++
    "Max: " ++ toString maxCount ++ " applicants/week\n" ++
    "\n" ++ "Weekly Breakdown:\n" ++ "\n" ++
    breakdownRows weeks counts maxCount ++
    "\n" ++
    "  Total: " ++ toString counts.sum ++ " applicants over 26 weeks\n" ++
    "  Average: " ++ fmt1 counts.sum 26 ++ " applicants/week\n"

/-! ## Grouped table rendering (`printTableGrouped` in `cmd/ashby.go`)

For one department, `printTableGrouped` prints each job row and accumulates
the department subtotal map: for every configured week
`deptWeekTotals[week] += job.WeekCounts[week]`, then
`deptWeekTotals[currentWeek] += job.WeekCounts[currentWeek]`; the subtotal row
is then printed by `table.printRow("  Subtotal", deptWeekTotals, currentWeek)`.
The function below is that accumulation, starting from the fresh map of the
department (`jobs` lists the children's week-count maps, in table order). -/
def deptWeekTotalsOf (jobs : List GoMap) (weeks : List Int) (currentWeek : Int) : GoMap :=
  jobs.foldl (fun dept job =>
    let dept := weeks.foldl (fun d week => mapAdd d week (lookup0 job week)) dept
    mapAdd dept currentWeek (lookup0 job currentWeek)) []

/-- Claim-side comparison map for C5: the elementwise sum of the children's
per-week counts over the configured weeks, together with the summed
current-week value. -/
def childSumMap (jobs : List GoMap) (weeks : List Int) (currentWeek : Int) : GoMap :=
  (weeks.map fun week => (week, (jobs.map fun job => lookup0 job week).sum)) ++
    [(currentWeek, (jobs.map fun job => lookup0 job currentWeek).sum)]

/-! ## Helper lemmas -/

theorem strJoin_cons (s : String) (l : List String) :
    String.join (s :: l) = s ++ String.join l := by
  apply String.ext
  simp [String.join_eq, String.data_append]

/-- The row-printing loops of the table renderer append one formatted cell and
add one count per week; unrolled, they produce the concatenation of the cells
and the sum of the counts. -/
theorem foldl_cells_eq (f : Int → String) (g : Int → Int) :
    ∀ (l : List Int) (acc : String) (tot : Int),
      l.foldl (fun (p : String × Int) x => (p.1 ++ f x, p.2 + g x)) (acc, tot)
        = (acc ++ String.join (l.map f), tot + (l.map g).sum) := by
  intro l
  induction l with
  | nil =>
    intro acc tot
    rw [List.foldl_nil, List.map_nil, List.map_nil, List.sum_nil,
      show String.join [] = "" from rfl, String.append_empty, add_zero]
  | cons x xs ih =>
    intro acc tot
    simp only [List.foldl_cons, List.map_cons, List.sum_cons, ih, strJoin_cons]
    rw [String.append_assoc, add_assoc]

theorem lookup0_mapAdd_self (m : GoMap) (k v : Int) :
    lookup0 (mapAdd m k v) k = lookup0 m k + v := by
  induction m with
  | nil => simp [mapAdd, lookup0]
  | cons p rest ih =>
    obtain ⟨k0, v0⟩ := p
    by_cases h : k0 = k
    · subst h; simp [mapAdd, lookup0]
    · simp [mapAdd, lookup0, h, ih]

theorem lookup0_mapAdd_ne (m : GoMap) (k k2 v : Int) (h : k2 ≠ k) :
    lookup0 (mapAdd m k v) k2 = lookup0 m k2 := by
  have hk : k ≠ k2 := Ne.symm h
  induction m with
  | nil => simp [mapAdd, lookup0, hk]
  | cons p rest ih =>
    obtain ⟨k0, v0⟩ := p
    by_cases h0 : k0 = k
    · subst h0; simp [mapAdd, lookup0, hk]
    · simp [mapAdd, lookup0, h0, ih]

/-- Accumulating one job over the configured weeks leaves lookups outside the
week set unchanged. -/
theorem lookup0_weeksFold_notMem (weeks : List Int) (job : GoMap) :
    ∀ (d : GoMap) (w : Int), w ∉ weeks →
      lookup0 (weeks.foldl (fun d week => mapAdd d week (lookup0 job week)) d) w
        = lookup0 d w := by
  induction weeks with
  | nil => intro d w _; rfl
  | cons x xs ih =>
    intro d w hw
    have hx : w ≠ x := fun he => hw (by rw [he]; exact List.mem_cons_self x xs)
    have hxs : w ∉ xs := fun hm => hw (List.mem_cons_of_mem x hm)
    rw [List.foldl_cons, ih _ _ hxs, lookup0_mapAdd_ne _ _ _ _ hx]

/-- Accumulating one job over distinct configured weeks adds exactly the job's
count at every configured week. -/
theorem lookup0_weeksFold_mem (weeks : List Int) (job : GoMap) :
    ∀ (d : GoMap) (w : Int), weeks.Nodup → w ∈ weeks →
      lookup0 (weeks.foldl (fun d week => mapAdd d week (lookup0 job week)) d) w
        = lookup0 d w + lookup0 job w := by
  induction weeks with
  | nil => intro d w _ hw; cases hw
  | cons x xs ih =>
    intro d w hnd hw
    rw [List.foldl_cons]
    rcases List.mem_cons.mp hw with he | hmem
    · subst he
      rw [lookup0_weeksFold_notMem xs job _ _ (List.nodup_cons.mp hnd).1,
        lookup0_mapAdd_self]
    · have hx : w ≠ x := fun he =>
        (List.nodup_cons.mp hnd).1 (by rw [← he]; exact hmem)
      rw [ih _ _ (List.nodup_cons.mp hnd).2 hmem, lookup0_mapAdd_ne _ _ _ _ hx]

/-- Elementwise characterization of the department subtotal accumulation, for
a configured week. -/
theorem lookup0_deptFold_week (weeks : List Int) (cw : Int)
    (hnd : weeks.Nodup) (hcw : cw ∉ weeks) :
    ∀ (jobs : List GoMap) (d : GoMap) (w : Int), w ∈ weeks →
      lookup0 (jobs.foldl (fun dept job =>
          mapAdd (weeks.foldl (fun d week => mapAdd d week (lookup0 job week)) dept)
            cw (lookup0 job cw)) d) w
        = lookup0 d w + (jobs.map fun job => lookup0 job w).sum := by
  intro jobs
  induction jobs with
  | nil => intro d w _; simp
  | cons j js ih =>
    intro d w hw
    have hwcw : w ≠ cw := fun he => hcw (by rw [← he]; exact hw)
    rw [List.foldl_cons, ih _ _ hw, lookup0_mapAdd_ne _ _ _ _ hwcw,
      lookup0_weeksFold_mem weeks j _ _ hnd hw]
    simp only [List.map_cons, List.sum_cons]
    omega

/-- Elementwise characterization of the department subtotal accumulation, at
the current week. -/
theorem lookup0_deptFold_current (weeks : List Int) (cw : Int) (hcw : cw ∉ weeks) :
    ∀ (jobs : List GoMap) (d : GoMap),
      lookup0 (jobs.foldl (fun dept job =>
          mapAdd (weeks.foldl (fun d week => mapAdd d week (lookup0 job week)) dept)
            cw (lookup0 job cw)) d) cw
        = lookup0 d cw + (jobs.map fun job => lookup0 job cw).sum := by
  intro jobs
  induction jobs with
  | nil => intro d; simp
  | cons j js ih =>
    intro d
    rw [List.foldl_cons, ih, lookup0_mapAdd_self,
      lookup0_weeksFold_notMem weeks j _ _ hcw]
    simp only [List.map_cons, List.sum_cons]
    omega

/-- Closed form of the `getLastNWeeks` fill loop: entry `i` (0-based, oldest
first) is the starting Monday minus `7 * (n - 1 - i)` days. -/
theorem getLastNWeeksAux_eq (t : Int) (n : Nat) :
    getLastNWeeksAux t n
      = (List.range n).map fun (i : Nat) => t - 7 * ((n : Int) - 1 - (i : Int)) := by
  induction n generalizing t with
  | zero => rfl
  | succ n ih =>
    rw [getLastNWeeksAux, ih, List.range_succ, List.map_append, List.map_singleton]
    congr 1
    · apply List.map_congr_left
      intro a _
      push_cast
      ring
    · congr 1
      push_cast
      ring

theorem getLastNWeeks_length (n : Nat) (now : Int) :
    (getLastNWeeks n now).length = n := by
  rw [getLastNWeeks, getLastNWeeksAux_eq, List.length_map, List.length_range]

theorem getLastNWeeks_get (n : Nat) (now : Int) (i : Nat)
    (h : i < (getLastNWeeks n now).length) :
    (getLastNWeeks n now).get ⟨i, h⟩
      = getLastCompletedWeekStart now - 7 * ((n : Int) - 1 - (i : Int)) := by
  rw [List.get_eq_getElem]
  simp only [getLastNWeeks, getLastNWeeksAux_eq, List.getElem_map, List.getElem_range]

/-- The most recently completed week starts exactly 7 days before the week
containing "now". -/
theorem getLastCompletedWeekStart_eq (now : Int) :
    getLastCompletedWeekStart now = getWeekStart now - 7 := by
  simp only [getLastCompletedWeekStart, getWeekStart, weekdayUTC]
  split <;> omega

/-- Every completed week key returned by `getLastNWeeks` strictly precedes the
current week key. -/
theorem getLastNWeeks_lt_current (n : Nat) (now : Int) :
    ∀ w ∈ getLastNWeeks n now, w < getCurrentWeekStart now := by
  intro w hw
  rw [getLastNWeeks, getLastNWeeksAux_eq] at hw
  obtain ⟨i, hi, he⟩ := List.mem_map.mp hw
  have hin : i < n := List.mem_range.mp hi
  rw [getCurrentWeekStart, ← he, getLastCompletedWeekStart_eq]
  omega

/-- The completed week keys are pairwise distinct (they are 7 days apart). -/
theorem getLastNWeeks_nodup (n : Nat) (now : Int) :
    (getLastNWeeks n now).Nodup := by
  rw [getLastNWeeks, getLastNWeeksAux_eq]
  apply List.Nodup.map _ (List.nodup_range n)
  intro a b he
  dsimp only at he
  omega

/-- The current week key is never one of the completed week keys. -/
theorem current_notMem_getLastNWeeks (n : Nat) (now : Int) :
    getCurrentWeekStart now ∉ getLastNWeeks n now := by
  intro hmem
  exact absurd rfl (ne_of_lt (getLastNWeeks_lt_current n now _ hmem))

/-- Congruence for a left fold whose step functions agree on the list's
elements. -/
theorem foldl_congr_mem {α β : Type} (l : List α) (f g : β → α → β) :
    ∀ b : β, (∀ acc : β, ∀ x ∈ l, f acc x = g acc x) →
      l.foldl f b = l.foldl g b := by
  induction l with
  | nil => intro b _; rfl
  | cons x xs ih =>
    intro b h
    rw [List.foldl_cons, List.foldl_cons, h b x (List.mem_cons_self x xs)]
    exact ih _ fun acc y hy => h acc y (List.mem_cons_of_mem x hy)

/-- `printRow`'s emitted line and returned total read the map argument only at
the configured week keys and at the current week key. -/
theorem printRow_congr (t : weeklyTable) (label : String) (m1 m2 : GoMap)
    (cw : Int) (hw : ∀ w ∈ t.weeks, lookup0 m1 w = lookup0 m2 w)
    (hc : lookup0 m1 cw = lookup0 m2 cw) :
    (t.printRow label m1 (some cw)).2.2 = (t.printRow label m2 (some cw)).2.2 := by
  simp only [weeklyTable.printRow, hc]
  rw [foldl_congr_mem t.weeks _ _ _ fun acc x hx => by rw [hw x hx]]

/-- Lookup of the claim-side elementwise-sum map at a configured week. -/
theorem lookup0_childSumMap_week (jobs : List GoMap) (weeks : List Int)
    (cw : Int) (hnd : weeks.Nodup) (hcw : cw ∉ weeks) :
    ∀ w ∈ weeks, lookup0 (childSumMap jobs weeks cw) w
      = (jobs.map fun job => lookup0 job w).sum := by
  induction weeks with
  | nil => intro w hw; cases hw
  | cons x xs ih =>
    intro w hw
    rcases List.mem_cons.mp hw with he | hmem
    · subst he
      simp [childSumMap, lookup0]
    · have hx : x ≠ w := fun he =>
        (List.nodup_cons.mp hnd).1 (by rw [he]; exact hmem)
      have := ih (List.nodup_cons.mp hnd).2
        (fun hm => hcw (List.mem_cons_of_mem x hm)) w hmem
      simpa [childSumMap, lookup0, hx] using this

/-- Lookup of the claim-side elementwise-sum map at the current week. -/
theorem lookup0_childSumMap_current (jobs : List GoMap) (weeks : List Int)
    (cw : Int) (hcw : cw ∉ weeks) :
    lookup0 (childSumMap jobs weeks cw) cw
      = (jobs.map fun job => lookup0 job cw).sum := by
  induction weeks with
  | nil => simp [childSumMap, lookup0]
  | cons x xs ih =>
    have hx : x ≠ cw := fun he => hcw (by rw [← he]; exact List.mem_cons_self x xs)
    have := ih (fun hm => hcw (List.mem_cons_of_mem x hm))
    simpa [childSumMap, lookup0, hx] using this

/-- A fold computing the running maximum of an all-zero list from 0 yields
0. -/
theorem maxFold_zero (l : List Int) (h : ∀ c ∈ l, c = 0) :
    l.foldl (fun maxC count => if count > maxC then count else maxC) 0 = 0 := by
  induction l with
  | nil => rfl
  | cons x xs ih =>
    have hx : x = 0 := h x (List.mem_cons_self x xs)
    rw [List.foldl_cons]
    subst hx
    rw [if_neg (by omega)]
    exact ih fun c hc => h c (List.mem_cons_of_mem _ hc)

/-! ## Claim theorems -/

/-- C2: for every "now", `getLastCompletedWeekStart` steps back a full 7 days
when "now" falls on a Sunday (weekday 0) and `weekday` days otherwise,
landing on the most recent fully elapsed Sunday, then 6 more days to that
week's Monday; the returned week key is always the Monday (weekday 1) of the
most recent week whose Sunday has fully elapsed before "now" (at UTC day
granularity: the latest Monday `m` with `m + 6 < now`). -/
theorem getLastCompletedWeekStart_spec (now : Int) :
    weekdayUTC (getLastCompletedWeekStart now) = 1
  ∧ getLastCompletedWeekStart now + 6 < now
  ∧ (∀ monday : Int, weekdayUTC monday = 1 → monday + 6 < now →
      monday ≤ getLastCompletedWeekStart now)
  ∧ (weekdayUTC now = 0 → getLastCompletedWeekStart now = (now - 7) - 6)
  ∧ (weekdayUTC now ≠ 0 →
      getLastCompletedWeekStart now = (now - weekdayUTC now) - 6) := by
  simp only [getLastCompletedWeekStart, weekdayUTC]
  refine ⟨?_, ?_, ?_, ?_, ?_⟩ <;> split <;> omega

/-- C2 witness: concrete Sunday "now" = 2024-03-24 (day 19806); the result is
the Monday 2024-03-11 (day 19793), its Sunday 2024-03-17 has elapsed, the
Monday 2024-03-04 (day 19786) is not more recent, and the Sunday branch
stepped back 7 + 6 days. -/
theorem getLastCompletedWeekStart_spec_witness :
    weekdayUTC (getLastCompletedWeekStart 19806) = 1
  ∧ getLastCompletedWeekStart 19806 + 6 < 19806
  ∧ 19786 ≤ getLastCompletedWeekStart 19806
  ∧ getLastCompletedWeekStart 19806 = (19806 - 7) - 6 := by
  obtain ⟨h1, h2, h3, h4, _⟩ := getLastCompletedWeekStart_spec 19806
  exact ⟨h1, h2, h3 19786 (by decide) (by decide), h4 (by decide)⟩

/-- C4: for every timestamp (UTC day) `t`, `getWeekStart t` is a Monday
(weekday 1, obtained by treating Sunday as day 7 and subtracting
`weekday - 1` days), and `getWeekStart t ≤ t ≤ weekStartToEnd (getWeekStart
t)`, where `weekStartToEnd` adds 6 days to reach the week's Sunday. -/
theorem getWeekStart_monday_bounds (t : Int) :
    weekdayUTC (getWeekStart t) = 1
  ∧ getWeekStart t ≤ t
  ∧ t ≤ weekStartToEnd (getWeekStart t) := by
  simp only [getWeekStart, weekStartToEnd, weekdayUTC]
  refine ⟨?_, ?_, ?_⟩ <;> split <;> omega

/-- C8: `getWeekStart` is idempotent under re-normalization: every instant
(UTC day) `u` within the week returned for `t` — from the Monday up to and
including its Sunday, i.e. before the following Monday — yields the same
week key; in particular `getWeekStart (getWeekStart t) = getWeekStart t`. -/
theorem getWeekStart_idempotent (t u : Int)
    (h1 : getWeekStart t ≤ u) (h2 : u ≤ getWeekStart t + 6) :
    getWeekStart u = getWeekStart t
  ∧ getWeekStart (getWeekStart t) = getWeekStart t := by
  simp only [getWeekStart, weekdayUTC] at *
  constructor <;> [skip; skip] <;> split_ifs at * <;> omega

/-- C8 witness: "now" = 2024-03-20 (day 19802, a Wednesday) has week start
2024-03-18 (day 19800); the instant 2024-03-21 (day 19803) lies within that
week and re-normalizes to the same key. -/
theorem getWeekStart_idempotent_witness :
    getWeekStart 19802 ≤ 19803
  ∧ 19803 ≤ getWeekStart 19802 + 6
  ∧ getWeekStart 19803 = getWeekStart 19802 := by
  exact ⟨by decide, by decide,
    (getWeekStart_idempotent 19802 19803 (by decide) (by decide)).1⟩

/-- C3: for every n and "now", `getLastNWeeks n now` returns exactly n week
keys; entry i equals `getLastCompletedWeekStart now - 7*(n-1-i)`, so the keys
are ordered oldest first, 7 days apart, and end (at i = n-1) at
`getLastCompletedWeekStart now`; the most recent entry's Sunday is strictly
before "now" whenever n > 0; n = 0 yields the empty sequence; and for "now" =
Wednesday 2024-03-20 the 4-week result is [2024-02-19, 2024-02-26,
2024-03-04, 2024-03-11]. -/
theorem getLastNWeeks_spec (n : Nat) (now : Int) :
    (getLastNWeeks n now).length = n
  ∧ (∀ (i : Nat) (h : i < (getLastNWeeks n now).length),
      (getLastNWeeks n now).get ⟨i, h⟩
        = getLastCompletedWeekStart now - 7 * ((n : Int) - 1 - (i : Int)))
  ∧ getLastNWeeks 0 now = []
  ∧ (0 < n → getLastCompletedWeekStart now + 6 < now)
  ∧ getLastNWeeks 4 (daysFromCivil 2024 3 20)
      = [daysFromCivil 2024 2 19, daysFromCivil 2024 2 26,
         daysFromCivil 2024 3 4, daysFromCivil 2024 3 11] := by
  refine ⟨getLastNWeeks_length n now, getLastNWeeks_get n now, rfl, ?_, by decide⟩
  intro _
  exact (getLastCompletedWeekStart_spec now).2.1

/-- C3 witness: at "now" = 2024-03-20 (day 19802), the 4-week window has
length 4, its entry 2 is `getLastCompletedWeekStart - 7`, and the most recent
completed Sunday is strictly before "now". -/
theorem getLastNWeeks_spec_witness :
    (getLastNWeeks 4 19802).length = 4
  ∧ (getLastNWeeks 4 19802).get ⟨2, by decide⟩
      = getLastCompletedWeekStart 19802 - 7 * ((4 : Int) - 1 - (2 : Int))
  ∧ getLastCompletedWeekStart 19802 + 6 < 19802 := by
  obtain ⟨h1, h2, h3, h4, h5⟩ := getLastNWeeks_spec 4 19802
  exact ⟨h1, h2 2 (by decide), h4 (by decide)⟩

/-- C1: for every label, week-count mapping and current-week key, the total
returned by `printRow` — and printed in its trailing Total cell — is the sum
of the counts of the configured week keys only; supplying a current-week key
(including one that coincides with a configured week key, since `currentWeek`
here ranges over all keys) renders the Current column but never changes the
total, which equals the total of the no-current-week call. -/
theorem printRow_total_excludes_current (t : weeklyTable) (label : String)
    (weekValues : GoMap) (currentWeek : Int) :
    (t.printRow label weekValues (some currentWeek)).2.2.2
      = (t.weeks.map fun week => lookup0 weekValues week).sum
  ∧ (t.printRow label weekValues (some currentWeek)).2.2.2
      = (t.printRow label weekValues none).2.2.2
  ∧ ∃ pre : String, (t.printRow label weekValues (some currentWeek)).2.2.1
      = pre ++ padLeft t.weekColWidth
          (toString (t.weeks.map fun week => lookup0 weekValues week).sum)
        ++ "\n" := by
  have hfold := foldl_cells_eq
    (fun week => if lookup0 weekValues week = 0 then padLeft t.weekColWidth "-"
      else padLeft t.weekColWidth (toString (lookup0 weekValues week)))
    (fun week => lookup0 weekValues week)
    t.weeks (padRight t.labelColWidth label) 0
  simp only [weeklyTable.printRow, hfold, zero_add]
  exact ⟨trivial, trivial, _, rfl⟩

/-- A key stored nowhere in the map looks up to the zero value 0. -/
theorem lookup0_absent : ∀ (m : GoMap) (k : Int),
    (∀ p ∈ m, p.1 ≠ k) → lookup0 m k = 0 := by
  intro m
  induction m with
  | nil => intro k _; rfl
  | cons p rest ih =>
    intro k h
    obtain ⟨k0, v0⟩ := p
    rw [lookup0, if_neg (h (k0, v0) (List.mem_cons_self _ _))]
    exact ih k fun q hq => h q (List.mem_cons_of_mem _ hq)

/-- C6: in a rendered data row and totals row (current and legacy renderers),
the cell of every configured week key — and of the current-week key — is the
right-aligned placeholder "-" exactly when its count is 0 (keys absent from
the mapping default to 0, last conjunct), and the right-aligned decimal value
of the count otherwise. -/
theorem zero_placeholder_rendering (t : weeklyTable) (label : String)
    (m : GoMap) (currentWeek : Int) (lt : legacy.weeklyTable) :
    (t.printRow label m (some currentWeek)).2.2.1
      = padRight t.labelColWidth label
        ++ String.join (t.weeks.map fun week =>
            if lookup0 m week = 0 then padLeft t.weekColWidth "-"
            else padLeft t.weekColWidth (toString (lookup0 m week)))
        ++ (if lookup0 m currentWeek = 0 then padLeft t.weekColWidth "-"
            else padLeft t.weekColWidth (toString (lookup0 m currentWeek)))
        ++ padLeft t.weekColWidth
            (toString (t.weeks.map fun week => lookup0 m week).sum)
        ++ "\n"
  ∧ (t.printTotalsRow label m (some currentWeek)).2.2
      = padRight t.labelColWidth label
        ++ String.join (t.weeks.map fun week =>
            if lookup0 m week = 0 then padLeft t.weekColWidth "-"
            else padLeft t.weekColWidth (toString (lookup0 m week)))
        ++ (if lookup0 m currentWeek = 0 then padLeft t.weekColWidth "-"
            else padLeft t.weekColWidth (toString (lookup0 m currentWeek)))
        ++ padLeft t.weekColWidth
            (toString (t.weeks.map fun week => lookup0 m week).sum)
        ++ "\n"
  ∧ (lt.printRow label m).2.2.1
      = padRight lt.labelColWidth label
        ++ String.join (lt.weeks.map fun week =>
            if lookup0 m week = 0 then padLeft lt.weekColWidth "-"
            else padLeft lt.weekColWidth (toString (lookup0 m week)))
        ++ padLeft lt.weekColWidth
            (toString (lt.weeks.map fun week => lookup0 m week).sum)
        ++ "\n"
  ∧ (∀ k : Int, (∀ p ∈ m, p.1 ≠ k) → lookup0 m k = 0) := by
  have hfold := foldl_cells_eq
    (fun week => if lookup0 m week = 0 then padLeft t.weekColWidth "-"
      else padLeft t.weekColWidth (toString (lookup0 m week)))
    (fun week => lookup0 m week)
    t.weeks (padRight t.labelColWidth label) 0
  have hfoldL := foldl_cells_eq
    (fun week => if lookup0 m week = 0 then padLeft lt.weekColWidth "-"
      else padLeft lt.weekColWidth (toString (lookup0 m week)))
    (fun week => lookup0 m week)
    lt.weeks (padRight lt.labelColWidth label) 0
  refine ⟨?_, ?_, ?_, lookup0_absent m⟩
  · simp only [weeklyTable.printRow, hfold, zero_add]
    split <;> rfl
  · simp only [weeklyTable.printTotalsRow, hfold, zero_add]
    split <;> rfl
  · simp only [legacy.weeklyTable.printRow, hfoldL, zero_add]

/-- C6 witness: a concrete two-week table with counts {10 ↦ 5}: the rendered
row substitutes "-" for the zero count of week 17 and for the current week,
prints 5 as a decimal, and the absent key 42 defaults to 0. -/
theorem zero_placeholder_rendering_witness :
    ((newWeeklyTable 3 4 [10, 17]).printRow "L" [(10, 5)] (some 17)).2.2.1
      = padRight (newWeeklyTable 3 4 [10, 17]).labelColWidth "L"
        ++ String.join ((newWeeklyTable 3 4 [10, 17]).weeks.map fun week =>
            if lookup0 [(10, 5)] week = 0
            then padLeft (newWeeklyTable 3 4 [10, 17]).weekColWidth "-"
            else padLeft (newWeeklyTable 3 4 [10, 17]).weekColWidth
              (toString (lookup0 [(10, 5)] week)))
        ++ (if lookup0 [(10, 5)] 17 = 0
            then padLeft (newWeeklyTable 3 4 [10, 17]).weekColWidth "-"
            else padLeft (newWeeklyTable 3 4 [10, 17]).weekColWidth
              (toString (lookup0 [(10, 5)] 17)))
        ++ padLeft (newWeeklyTable 3 4 [10, 17]).weekColWidth
            (toString ((newWeeklyTable 3 4 [10, 17]).weeks.map fun week =>
              lookup0 [(10, 5)] week).sum)
        ++ "\n"
  ∧ lookup0 [(10, 5)] 42 = 0
  ∧ ((newWeeklyTable 3 4 [10, 17]).printRow "L" [(10, 5)] (some 17)).2.2.1
      = "L     5   -   -   5\n" := by
  obtain ⟨h1, h2, h3, h4⟩ := zero_placeholder_rendering
    (newWeeklyTable 3 4 [10, 17]) "L" [(10, 5)] 17
    (legacy.newWeeklyTable 3 4 [10])
  exact ⟨h1, h4 42 (by decide), by decide⟩

/-- C10: every rendering operation of the weekly table — `printHeader`,
`printSeparator`, `printRow`, `printRowWithSlice`, `printTotalsRow`, in both
the current and the legacy renderer — leaves the receiver state (label-column
width, week-column width, configured week keys) unchanged, and the operations
that take a count mapping also leave that mapping unchanged; no totals are
accumulated in the table state (the `weeklyTable` structure holds only the
three configuration fields, and row totals are returned as the final
component of `printRow`/`printRowWithSlice`). -/
theorem weeklyTable_render_frame (t : weeklyTable) (labelTitle label : String)
    (m : GoMap) (currentWeek : Option Int) (counts : List Int)
    (currentCount : Int) (lt : legacy.weeklyTable) :
    (t.printHeader labelTitle currentWeek).1 = t
  ∧ (t.printSeparator currentWeek).1 = t
  ∧ (t.printRow label m currentWeek).1 = t
  ∧ (t.printRow label m currentWeek).2.1 = m
  ∧ (t.printRowWithSlice label counts currentCount).1 = t
  ∧ (t.printTotalsRow label m currentWeek).1 = t
  ∧ (t.printTotalsRow label m currentWeek).2.1 = m
  ∧ (lt.printHeader labelTitle).1 = lt
  ∧ lt.printSeparator.1 = lt
  ∧ (lt.printRow label m).1 = lt
  ∧ (lt.printRow label m).2.1 = m
  ∧ (lt.printRowWithSlice label counts).1 = lt
  ∧ (lt.printTotalsRow label m).1 = lt
  ∧ (lt.printTotalsRow label m).2.1 = m :=
  ⟨rfl, rfl, rfl, rfl, rfl, rfl, rfl, rfl, rfl, rfl, rfl, rfl, rfl, rfl⟩

/-- C5: in grouped table rendering (`printTableGrouped`, which renders with
week keys `getLast4Weeks` and current week `getCurrentWeekStart`), the
accumulated department subtotal map holds, at every configured week and at
the current week, exactly the elementwise sum of the children's per-week
counts; consequently the printed subtotal row (line and returned total) is
identical to the row printed from the elementwise-sum map of the children. -/
theorem printTableGrouped_subtotal_sum (jobs : List GoMap) (now : Int) :
    (∀ week ∈ getLast4Weeks now,
      lookup0 (deptWeekTotalsOf jobs (getLast4Weeks now) (getCurrentWeekStart now)) week
        = (jobs.map fun job => lookup0 job week).sum)
  ∧ lookup0 (deptWeekTotalsOf jobs (getLast4Weeks now) (getCurrentWeekStart now))
        (getCurrentWeekStart now)
      = (jobs.map fun job => lookup0 job (getCurrentWeekStart now)).sum
  ∧ ((newWeeklyTable 35 10 (getLast4Weeks now)).printRow "  Subtotal"
        (deptWeekTotalsOf jobs (getLast4Weeks now) (getCurrentWeekStart now))
        (some (getCurrentWeekStart now))).2.2
      = ((newWeeklyTable 35 10 (getLast4Weeks now)).printRow "  Subtotal"
        (childSumMap jobs (getLast4Weeks now) (getCurrentWeekStart now))
        (some (getCurrentWeekStart now))).2.2 := by
  have hnd : (getLast4Weeks now).Nodup := getLastNWeeks_nodup 4 now
  have hcw : getCurrentWeekStart now ∉ getLast4Weeks now :=
    current_notMem_getLastNWeeks 4 now
  have h1 : ∀ week ∈ getLast4Weeks now,
      lookup0 (deptWeekTotalsOf jobs (getLast4Weeks now) (getCurrentWeekStart now)) week
        = (jobs.map fun job => lookup0 job week).sum := by
    intro week hw
    have := lookup0_deptFold_week (getLast4Weeks now) (getCurrentWeekStart now)
      hnd hcw jobs [] week hw
    simpa [deptWeekTotalsOf, lookup0] using this
  have h2 : lookup0 (deptWeekTotalsOf jobs (getLast4Weeks now) (getCurrentWeekStart now))
        (getCurrentWeekStart now)
      = (jobs.map fun job => lookup0 job (getCurrentWeekStart now)).sum := by
    have := lookup0_deptFold_current (getLast4Weeks now) (getCurrentWeekStart now)
      hcw jobs []
    simpa [deptWeekTotalsOf, lookup0] using this
  refine ⟨h1, h2, ?_⟩
  apply printRow_congr
  · intro w hw
    rw [h1 w hw, lookup0_childSumMap_week jobs (getLast4Weeks now)
      (getCurrentWeekStart now) hnd hcw w hw]
  · rw [h2, lookup0_childSumMap_current jobs (getLast4Weeks now)
      (getCurrentWeekStart now) hcw]

/-- C5 witness: two concrete children at "now" = 2024-03-20 (day 19802, weeks
[19772, 19779, 19786, 19793], current week 19800): the subtotal map holds
2 + 3 = 5 for week 19793 and 4 + 0 = 4 for the current week, and the printed
subtotal row equals the row printed from the elementwise-sum map. -/
theorem printTableGrouped_subtotal_sum_witness :
    lookup0 (deptWeekTotalsOf [[(19793, 2), (19800, 4)], [(19772, 1), (19793, 3)]]
        (getLast4Weeks 19802) (getCurrentWeekStart 19802)) 19793 = 5
  ∧ lookup0 (deptWeekTotalsOf [[(19793, 2), (19800, 4)], [(19772, 1), (19793, 3)]]
        (getLast4Weeks 19802) (getCurrentWeekStart 19802))
        (getCurrentWeekStart 19802) = 4
  ∧ ((newWeeklyTable 35 10 (getLast4Weeks 19802)).printRow "  Subtotal"
        (deptWeekTotalsOf [[(19793, 2), (19800, 4)], [(19772, 1), (19793, 3)]]
          (getLast4Weeks 19802) (getCurrentWeekStart 19802))
        (some (getCurrentWeekStart 19802))).2.2
      = ((newWeeklyTable 35 10 (getLast4Weeks 19802)).printRow "  Subtotal"
        (childSumMap [[(19793, 2), (19800, 4)], [(19772, 1), (19793, 3)]]
          (getLast4Weeks 19802) (getCurrentWeekStart 19802))
        (some (getCurrentWeekStart 19802))).2.2 := by
  obtain ⟨h1, h2, h3⟩ := printTableGrouped_subtotal_sum
    [[(19793, 2), (19800, 4)], [(19772, 1), (19793, 3)]] 19802
  exact ⟨(h1 19793 (by decide)).trans (by decide), h2.trans (by decide), h3⟩

/-- C7: whenever the 26 aggregated weekly totals are all zero (so their
maximum is zero), `printHistogram` emits exactly the informational "no data"
message and nothing else — no title, bar rows, axis, month ticks, scale,
breakdown, total or average; the function returns normally (the model is a
total function), so this terminal state is not a failure. -/
theorem printHistogram_no_data (metrics : List GoMap) (now : Int)
    (h : ∀ week ∈ getLast26Weeks now,
      lookup0 (aggregateWeekTotals metrics) week = 0) :
    printHistogram metrics now = "No applications in the last 6 months\n" := by
  have hz : ∀ c ∈ (getLast26Weeks now).map
      (fun week => lookup0 (aggregateWeekTotals metrics) week), c = 0 := by
    intro c hc
    obtain ⟨w, hw, he⟩ := List.mem_map.mp hc
    rw [← he]
    exact h w hw
  simp only [printHistogram]
  rw [maxFold_zero _ hz]
  simp

set_option maxRecDepth 10000 in
/-- C7 witness: a single job whose only count sits in week key 0 (far outside
the 26-week window ending before day 19802), so all 26 aggregated totals are
zero and only the "no data" message is emitted. -/
theorem printHistogram_no_data_witness :
    printHistogram [[(0, 5)]] 19802 = "No applications in the last 6 months\n" :=
  printHistogram_no_data [[(0, 5)]] 19802 (by decide)

/-- C9 counterexample: the claim prescribes a secondary bar of
`count/max * 30` characters (minimum 1 when count > 0); at count = max = 1
that is 30 characters, but the code (`int(float64(count)/float64(maxCount)*30)
+ 1`, exact at this input) renders 31, so the breakdown line differs from the
claimed one. -/
theorem breakdown_bar_counterexample :
    breakdownLine 19793 1 1
      ≠ "  " ++ formatWeekEnd 19793 ++ "  " ++ padLeft 3 (toString (1 : Int)) ++ " "
        ++ String.mk (List.replicate (max ((1 * 30 / 1 : Int)).toNat 1) '▪')
        ++ "\n" := by
  decide

/-- C9 amended: every week with count > 0 is printed with a proportional
secondary bar of `⌊count/max * 30⌋ + 1` characters — one more than the
truncated proportional length, hence at least 1 and (for count ≤ max) at most
31 — and weeks with count 0 get no bar. -/
theorem breakdown_bar_length (week count maxCount : Int)
    (hc : 0 < count) (hm : 0 < maxCount) (hle : count ≤ maxCount) :
    (∃ pre : String, breakdownLine week count maxCount
        = pre ++ String.mk (List.replicate ((count * 30 / maxCount).toNat + 1) '▪')
          ++ "\n")
  ∧ 1 ≤ (count * 30 / maxCount).toNat + 1
  ∧ (count * 30 / maxCount).toNat + 1 ≤ 31
  ∧ (∀ w0 m0 : Int, breakdownLine w0 0 m0
      = "  " ++ formatWeekEnd w0 ++ "  " ++ padLeft 3 (toString (0 : Int))
        ++ "\n") := by
  refine ⟨?_, by omega, ?_, ?_⟩
  · unfold breakdownLine
    rw [if_pos hc]
    exact ⟨_, rfl⟩
  · have h30 : count * 30 / maxCount ≤ 30 := by
      calc count * 30 / maxCount ≤ maxCount * 30 / maxCount :=
            Int.ediv_le_ediv hm (by nlinarith)
        _ = 30 := by rw [Int.mul_comm, Int.mul_ediv_cancel _ (by omega)]
    omega
  · intro w0 m0
    unfold breakdownLine
    rw [if_neg (by omega)]

/-- C9 amended witness: at count 1 of max 2 the bar has
`⌊1/2 * 30⌋ + 1 = 16` characters, and a zero count renders without a bar. -/
theorem breakdown_bar_length_witness :
    (0 : Int) < 1 ∧ (0 : Int) < 2 ∧ (1 : Int) ≤ 2
  ∧ (∃ pre : String, breakdownLine 19793 1 2
      = pre ++ String.mk (List.replicate ((1 * 30 / 2 : Int).toNat + 1) '▪')
        ++ "\n")
  ∧ breakdownLine 19793 0 2
      = "  " ++ formatWeekEnd 19793 ++ "  " ++ padLeft 3 (toString (0 : Int))
        ++ "\n" := by
  obtain ⟨h1, h2, h3, h4⟩ :=
    breakdown_bar_length 19793 1 2 (by decide) (by decide) (by decide)
  exact ⟨by decide, by decide, by decide, h1, h4 19793 2⟩
